import Mathlib

/-
Verification development for a personal Kanji SRS (spaced-repetition) learning
aid.  The embedding below translates the scheduling / selection core of the
application into Lean: the tracked-character record (types.ts `Kanji`), the
library operations of `useKanjiLibrary.ts` (`addKanji`, `deleteKanji`,
`updateKanjiUsage`, `updateKanjiReview`, `updateKanjiProperty`,
`saveKanjiList`), the prompt selector and session controller of
`SentenceGenerator.tsx` (`selectKanjiForPrompt`, `handleGenerate`), the
fallible generator wrapper of `geminiService.ts`
(`generateJapaneseSentences`), and the status classifier of
`KanjiLibrary.tsx` (`KanjiStatusIndicator`).

Modelling conventions:
  * JS numbers holding integers (timestamps in epoch ms, counters, SRS
    levels) are `Int`.
  * JS stable `Array.prototype.sort(cmp)` is modelled by a stable insertion
    sort `sortBy` over the boolean `≤` relation induced by the comparator.
  * The `Map`-based ordered deduplicating accumulation of the selector is an
    association list in insertion order (`addItem`).
  * Asynchronous external collaborators (the generation response and the
    JSON parser, the per-character dictionary lookup) are explicit function
    or `Except` parameters; `Date.now()` is an explicit timestamp parameter.
-/

namespace KanjiSrs

/-- The tracked character record (`Kanji` in types.ts). -/
structure Kanji where
  character : String
  addedAt : Int
  usedCount : Int
  lastUsedAt : Int
  jlptLevel : Option Int
  srsLevel : Int
  nextReviewAt : Int
  lastReviewedAt : Int
  correctStreak : Int
deriving DecidableEq, Repr

/-- Review outcome (`'correct' | 'incorrect'` in useKanjiLibrary.ts). -/
inductive Performance where
  | correct
  | incorrect
deriving DecidableEq, Repr

/-- SRS interval ladder in milliseconds (useKanjiLibrary.ts `SRS_INTERVALS`):
4 hours, 8 hours, 1 day, 3 days, 1 week, 2 weeks, 1 month, 4 months. -/
def SRS_INTERVALS : List Int :=
  [ 4 * 60 * 60 * 1000,
    8 * 60 * 60 * 1000,
    24 * 60 * 60 * 1000,
    3 * 24 * 60 * 60 * 1000,
    7 * 24 * 60 * 60 * 1000,
    2 * 7 * 24 * 60 * 60 * 1000,
    30 * 24 * 60 * 60 * 1000,
    4 * 30 * 24 * 60 * 60 * 1000 ]

/-- `MASTERED_SRS_LEVEL` constant (SentenceGenerator.tsx / KanjiLibrary.tsx). -/
def MASTERED_SRS_LEVEL : Int := 7

/-- `PROMPT_KANJI_LIMIT` constant (SentenceGenerator.tsx). -/
def PROMPT_KANJI_LIMIT : Nat := 10

/-- Insert `x` into a list so that it lands before the first element `y` with
`le x y`; the building block of the stable sort `sortBy`. -/
def insertSorted {α : Type} (le : α → α → Bool) (x : α) : List α → List α
  | [] => [x]
  | y :: ys => if le x y then x :: y :: ys else y :: insertSorted le x ys

/-- Stable sort by the boolean relation `le`, modelling JavaScript's stable
`Array.prototype.sort` with comparator `(a, b) => key a - key b` as
`le a b = key a ≤ key b`. -/
def sortBy {α : Type} (le : α → α → Bool) (xs : List α) : List α :=
  xs.foldr (insertSorted le) []

/-- `saveKanjiList` (useKanjiLibrary.ts): every mutation persists the list
sorted descending by `addedAt`; the in-memory state is set to the sorted
snapshot, so library operations return it. -/
def saveKanjiList (list : List Kanji) : List Kanji :=
  sortBy (fun a b => decide (b.addedAt ≤ a.addedAt)) list

/-- The per-entry body of `updateKanjiUsage`'s map (useKanjiLibrary.ts). -/
def usageStep (characters : List String) (timestamp : Int) (kanji : Kanji) : Kanji :=
  if characters.contains kanji.character then
    { kanji with usedCount := kanji.usedCount + 1, lastUsedAt := timestamp }
  else kanji

/-- `updateKanjiUsage` (useKanjiLibrary.ts): bump `usedCount`/`lastUsedAt` of
every entry named in `characters`, then persist. -/
def updateKanjiUsage (kanjiList : List Kanji) (characters : List String)
    (timestamp : Int) : List Kanji :=
  saveKanjiList (kanjiList.map (usageStep characters timestamp))

/-- The per-entry body of `updateKanjiReview`'s map (useKanjiLibrary.ts):
on `correct` increment `srsLevel` and `correctStreak` and schedule by the
ladder indexed with the (clamped) new level; on `incorrect` drop `srsLevel`
by two (never below 0), reset the streak, and schedule the fixed
`SRS_INTERVALS[0] / 4` penalty interval. -/
def reviewStep (characters : List String) (performance : Performance)
    (timestamp : Int) (kanji : Kanji) : Kanji :=
  if characters.contains kanji.character then
    let srsLevel : Int :=
      match performance with
      | .correct => kanji.srsLevel + 1
      | .incorrect => max 0 (kanji.srsLevel - 2)
    let correctStreak : Int :=
      match performance with
      | .correct => kanji.correctStreak + 1
      | .incorrect => 0
    let interval : Int :=
      match performance with
      | .correct => SRS_INTERVALS.getD (min srsLevel ((SRS_INTERVALS.length : Int) - 1)).toNat 0
      | .incorrect => SRS_INTERVALS.getD 0 0 / 4
    { kanji with
        srsLevel := srsLevel,
        correctStreak := correctStreak,
        lastReviewedAt := timestamp,
        nextReviewAt := timestamp + interval }
  else kanji

/-- `updateKanjiReview` (useKanjiLibrary.ts): apply the review-outcome
transition to every entry named in `characters`, then persist. -/
def updateKanjiReview (kanjiList : List Kanji) (characters : List String)
    (performance : Performance) (timestamp : Int) : List Kanji :=
  saveKanjiList (kanjiList.map (reviewStep characters performance timestamp))

/-- A `Partial<Kanji>` value: each field optionally overridden
(useKanjiLibrary.ts `updateKanjiProperty`'s `updates` argument). -/
structure KanjiUpdate where
  character : Option String := none
  addedAt : Option Int := none
  usedCount : Option Int := none
  lastUsedAt : Option Int := none
  jlptLevel : Option (Option Int) := none
  srsLevel : Option Int := none
  nextReviewAt : Option Int := none
  lastReviewedAt : Option Int := none
  correctStreak : Option Int := none
deriving DecidableEq, Repr

/-- JavaScript spread `{ ...kanji, ...updates }`: fields present in
`updates` override the entry's fields. -/
def applyUpdate (kanji : Kanji) (u : KanjiUpdate) : Kanji :=
  { character := u.character.getD kanji.character,
    addedAt := u.addedAt.getD kanji.addedAt,
    usedCount := u.usedCount.getD kanji.usedCount,
    lastUsedAt := u.lastUsedAt.getD kanji.lastUsedAt,
    jlptLevel := u.jlptLevel.getD kanji.jlptLevel,
    srsLevel := u.srsLevel.getD kanji.srsLevel,
    nextReviewAt := u.nextReviewAt.getD kanji.nextReviewAt,
    lastReviewedAt := u.lastReviewedAt.getD kanji.lastReviewedAt,
    correctStreak := u.correctStreak.getD kanji.correctStreak }

/-- `updateKanjiProperty` (useKanjiLibrary.ts): spread arbitrary updates onto
the entry with the given character, then persist. -/
def updateKanjiProperty (kanjiList : List Kanji) (character : String)
    (updates : KanjiUpdate) : List Kanji :=
  saveKanjiList (kanjiList.map (fun kanji =>
    if kanji.character == character then applyUpdate kanji updates else kanji))

/-- `deleteKanji` (useKanjiLibrary.ts): drop the entry with the given
character, then persist. -/
def deleteKanji (kanjiList : List Kanji) (character : String) : List Kanji :=
  saveKanjiList (kanjiList.filter (fun k => k.character != character))

/-- Membership of a character in the two CJK ranges of `KANJI_REGEX`
(useKanjiLibrary.ts): `[一-龯㐀-䶿]`. -/
def isKanjiChar (c : Char) : Bool :=
  (0x4e00 ≤ c.toNat && c.toNat ≤ 0x9faf) || (0x3400 ≤ c.toNat && c.toNat ≤ 0x4dbf)

/-- `text.match(KANJI_REGEX)` as the list of matched one-character strings in
text order. -/
def kanjiMatches (text : String) : List String :=
  (text.toList.filter isKanjiChar).map Char.toString

/-- `[...new Set(l)]`: deduplicate keeping the first occurrence of each
element, in order. -/
def dedupFirst (seen : List String) : List String → List String
  | [] => []
  | x :: xs =>
    if seen.contains x then dedupFirst seen xs
    else x :: dedupFirst (x :: seen) xs

/-- `addKanji` (useKanjiLibrary.ts): extract the CJK characters of `text`,
deduplicate, drop the ones already tracked, enrich each remaining character
through the dictionary-lookup collaborator `details` (its `jlpt` field; the
collaborator is an explicit function parameter), append the fresh entries and
persist; when nothing new remains the list is returned untouched (the save
path is skipped). -/
def addKanji (kanjiList : List Kanji) (text : String)
    (details : String → Option Int) (timestamp : Int) : List Kanji :=
  let existingChars := kanjiList.map (·.character)
  let newKanjiChars :=
    (dedupFirst [] (kanjiMatches text)).filter (fun c => !existingChars.contains c)
  if newKanjiChars.length > 0 then
    let newKanji : List Kanji := newKanjiChars.map (fun character =>
      { character := character,
        addedAt := timestamp,
        usedCount := 0,
        lastUsedAt := 0,
        jlptLevel := details character,
        srsLevel := 0,
        nextReviewAt := timestamp,
        lastReviewedAt := 0,
        correctStreak := 0 })
    saveKanjiList (kanjiList ++ newKanji)
  else kanjiList

/-- The ordered deduplicating insertion of `selectKanjiForPrompt`
(SentenceGenerator.tsx `addItem`): a JavaScript `Map` keyed by character —
insert only while the selection is below `PROMPT_KANJI_LIMIT`; `Map.set` on a
present key replaces the value at its original position and does not grow the
map. -/
def addItem (sel : List Kanji) (kanji : Kanji) : List Kanji :=
  if sel.length < PROMPT_KANJI_LIMIT then
    if sel.any (fun x => x.character == kanji.character) then
      sel.map (fun x => if x.character == kanji.character then kanji else x)
    else sel ++ [kanji]
  else sel

/-- The filtered candidate pool of `selectKanjiForPrompt`
(SentenceGenerator.tsx): restrict to the JLPT tier when a positive filter is
set. -/
def promptCandidates (kanjiList : List Kanji) (jlptFilter : Int) : List Kanji :=
  if jlptFilter > 0 then kanjiList.filter (fun k => k.jlptLevel == some jlptFilter)
  else kanjiList

/-- Tier A of `selectKanjiForPrompt` (SentenceGenerator.tsx
`dueForReview`): candidates due for review, sorted ascending by `srsLevel`. -/
def dueForReview (candidates : List Kanji) (now : Int) : List Kanji :=
  sortBy (fun a b => decide (a.srsLevel ≤ b.srsLevel))
    (candidates.filter (fun k => decide (k.nextReviewAt ≤ now)))

/-- Tier B of `selectKanjiForPrompt` (SentenceGenerator.tsx `leeches`):
candidates not yet due with `0 < srsLevel ≤ 3` and `correctStreak ≤ 1`,
sorted ascending by `lastReviewedAt`. -/
def leeches (candidates : List Kanji) (now : Int) : List Kanji :=
  sortBy (fun a b => decide (a.lastReviewedAt ≤ b.lastReviewedAt))
    (candidates.filter (fun k =>
      decide (k.nextReviewAt > now) && decide (k.srsLevel > 0) &&
      decide (k.srsLevel ≤ 3) && decide (k.correctStreak ≤ 1)))

/-- Tier C of `selectKanjiForPrompt` (SentenceGenerator.tsx
`learningKanji`): candidates not yet due and below the mastery threshold,
sorted descending by `addedAt`. -/
def learningKanji (candidates : List Kanji) (now : Int) : List Kanji :=
  sortBy (fun a b => decide (b.addedAt ≤ a.addedAt))
    (candidates.filter (fun k =>
      decide (k.nextReviewAt > now) && decide (k.srsLevel < MASTERED_SRS_LEVEL)))

/-- The three tier insertions of `selectKanjiForPrompt`
(SentenceGenerator.tsx: the three `forEach(addItem)` calls). -/
def selTiers (candidates : List Kanji) (now : Int) : List Kanji :=
  (learningKanji candidates now).foldl addItem
    ((leeches candidates now).foldl addItem
      ((dueForReview candidates now).foldl addItem []))

/-- `selectKanjiForPrompt` (SentenceGenerator.tsx): tiered, cap-aware
selection — due items, then leeches, then learning items, inserted into the
ordered deduplicating selection; if the selection is still empty, fall back
to up to `PROMPT_KANJI_LIMIT` candidates most stale by `lastUsedAt`. -/
def selectKanjiForPrompt (kanjiList : List Kanji) (jlptFilter : Int)
    (now : Int) : List Kanji :=
  let candidates := promptCandidates kanjiList jlptFilter
  if candidates.length = 0 then []
  else
    let sel := selTiers candidates now
    if sel.length = 0 then
      ((sortBy (fun a b => decide (a.lastUsedAt ≤ b.lastUsedAt)) candidates).take
        PROMPT_KANJI_LIMIT).foldl addItem sel
    else sel

/-- Display status buckets of `KanjiStatusIndicator` (KanjiLibrary.tsx). -/
inductive KanjiStatus where
  | new
  | due
  | leech
  | learning
  | mastered
deriving DecidableEq, Repr

/-- `KanjiStatusIndicator` (KanjiLibrary.tsx): classify an entry, first match
wins — new (`srsLevel == 0`), due (`now >= nextReviewAt`), leech
(`0 < srsLevel <= 3` and `correctStreak <= 1`), learning
(`srsLevel < MASTERED_SRS_LEVEL`), else mastered. -/
def kanjiStatus (kanji : Kanji) (now : Int) : KanjiStatus :=
  if kanji.srsLevel = 0 then .new
  else if now ≥ kanji.nextReviewAt then .due
  else if kanji.srsLevel > 0 && kanji.srsLevel ≤ 3 && kanji.correctStreak ≤ 1 then .leech
  else if kanji.srsLevel < MASTERED_SRS_LEVEL then .learning
  else .mastered

/-- A generated sentence as consumed by the session controller: the
`japanese` text plus its accompanying fields (types.ts `JapaneseSentence`;
only `japanese` feeds back into library state). -/
structure GenSentence where
  japanese : String
  hiragana : String
  english : String
  tokens : List String
deriving DecidableEq, Repr

/-- `pat` matches at the head of `s`. -/
def leadingMatch : List Char → List Char → Bool
  | [], _ => true
  | _ :: _, [] => false
  | a :: as, b :: bs => a == b && leadingMatch as bs

/-- `pat` occurs as a contiguous run somewhere in `s`. -/
def hasSub (pat : List Char) : List Char → Bool
  | [] => leadingMatch pat []
  | b :: bs => leadingMatch pat (b :: bs) || hasSub pat bs

/-- JavaScript `s.includes(pat)`: substring containment. -/
def strIncludes (s pat : String) : Bool :=
  hasSub pat.toList s.toList

/-- `generateJapaneseSentences` (geminiService.ts): the external call and the
JSON parse are explicit parameters (`response` is the raw text or a network
failure, `parse` the JSON decoding); any failure is caught and rethrown as
the fixed typed error message. -/
def generateJapaneseSentences (response : Except Unit String)
    (parse : String → Option (List GenSentence)) : Except String (List GenSentence) :=
  match response with
  | .error _ => .error "Failed to generate Japanese sentences with Gemini API."
  | .ok text =>
    match parse text.trim with
    | none => .error "Failed to generate Japanese sentences with Gemini API."
    | some result => .ok result

/-- `handleGenerate` (SentenceGenerator.tsx), as a function of the generation
outcome: guard on a non-empty prompt selection; on failure set the error and
leave the library alone; on success attach to every sentence the tracked
characters it contains, take the deduplicated union over all sentences and
increment usage once per character.  Returns the resulting library state and
the surfaced error, if any. -/
def handleGenerate (kanjiList : List Kanji) (jlptFilter : Int) (now : Int)
    (timestamp : Int) (result : Except String (List GenSentence)) :
    List Kanji × Option String :=
  if (selectKanjiForPrompt kanjiList jlptFilter now).length = 0 then
    (kanjiList, some "No Kanji available for sentence generation with the current filters.")
  else
    match result with
    | .error msg => (kanjiList, some msg)
    | .ok sentences =>
      let sentencesWithContext := sentences.map (fun s =>
        (s, (kanjiList.filter (fun k => strIncludes s.japanese k.character)).map (·.character)))
      let allUsedKanji := dedupFirst [] (sentencesWithContext.flatMap (fun sc => sc.2))
      (updateKanjiUsage kanjiList allUsedKanji timestamp, none)

/- Helper lemmas about the embedded list primitives -/

theorem length_insertSorted {α : Type} (le : α → α → Bool) (x : α) (l : List α) :
    (insertSorted le x l).length = l.length + 1 := by
  induction l with
  | nil => rfl
  | cons y ys ih =>
    simp only [insertSorted]
    split <;> simp [ih]

theorem mem_insertSorted {α : Type} {le : α → α → Bool} {x a : α} {l : List α} :
    a ∈ insertSorted le x l ↔ a = x ∨ a ∈ l := by
  induction l with
  | nil => simp [insertSorted]
  | cons y ys ih =>
    simp only [insertSorted]
    split
    · simp
    · simp only [List.mem_cons, ih]
      tauto

theorem length_sortBy {α : Type} (le : α → α → Bool) (l : List α) :
    (sortBy le l).length = l.length := by
  induction l with
  | nil => rfl
  | cons y ys ih =>
    simp only [sortBy, List.foldr_cons] at ih ⊢
    rw [length_insertSorted, ih]
    rfl

theorem mem_sortBy {α : Type} {le : α → α → Bool} {a : α} {l : List α} :
    a ∈ sortBy le l ↔ a ∈ l := by
  induction l with
  | nil => simp [sortBy]
  | cons y ys ih =>
    simp only [sortBy, List.foldr_cons] at ih ⊢
    rw [mem_insertSorted, ih, List.mem_cons]

theorem length_saveKanjiList (l : List Kanji) :
    (saveKanjiList l).length = l.length :=
  length_sortBy _ l

theorem mem_saveKanjiList {k : Kanji} {l : List Kanji} :
    k ∈ saveKanjiList l ↔ k ∈ l :=
  mem_sortBy

theorem contains_iff_mem {x : String} {l : List String} :
    l.contains x = true ↔ x ∈ l :=
  List.elem_iff

theorem mem_dedupFirst {x : String} {l : List String} : ∀ {seen : List String},
    x ∈ dedupFirst seen l ↔ x ∈ l ∧ x ∉ seen := by
  induction l with
  | nil => simp [dedupFirst]
  | cons y ys ih =>
    intro seen
    simp only [dedupFirst]
    split
    · next h =>
      have hy : y ∈ seen := contains_iff_mem.mp h
      have hxy : x = y → x ∈ seen := fun hq => hq ▸ hy
      simp only [ih, List.mem_cons]
      tauto
    · next h =>
      have hy : y ∉ seen := fun hmem => h (contains_iff_mem.mpr hmem)
      have hxy : x = y → x ∉ seen := fun hq => hq ▸ hy
      simp only [List.mem_cons, ih]
      tauto

theorem charMap_replace (sel : List Kanji) (k : Kanji) :
    (sel.map (fun x => if x.character == k.character then k else x)).map (·.character)
      = sel.map (·.character) := by
  induction sel with
  | nil => rfl
  | cons a as ih =>
    simp only [List.map_cons, ih]
    congr 1
    by_cases h : (a.character == k.character) = true
    · rw [if_pos h]
      exact (eq_of_beq h).symm
    · rw [if_neg h]

theorem length_addItem_le {sel : List Kanji} (k : Kanji)
    (h : sel.length ≤ PROMPT_KANJI_LIMIT) :
    (addItem sel k).length ≤ PROMPT_KANJI_LIMIT := by
  unfold addItem
  by_cases h1 : sel.length < PROMPT_KANJI_LIMIT
  · rw [if_pos h1]
    by_cases h2 : sel.any (fun x => x.character == k.character) = true
    · rw [if_pos h2]
      simpa using h
    · rw [if_neg h2]
      simpa [List.length_append] using h1
  · rw [if_neg h1]
    exact h

theorem length_le_addItem (sel : List Kanji) (k : Kanji) :
    sel.length ≤ (addItem sel k).length := by
  unfold addItem
  by_cases h1 : sel.length < PROMPT_KANJI_LIMIT
  · rw [if_pos h1]
    by_cases h2 : sel.any (fun x => x.character == k.character) = true
    · rw [if_pos h2]
      simp
    · rw [if_neg h2]
      simp [List.length_append]
  · rw [if_neg h1]

theorem nodup_addItem {sel : List Kanji} (k : Kanji)
    (h : (sel.map (·.character)).Nodup) :
    ((addItem sel k).map (·.character)).Nodup := by
  unfold addItem
  by_cases h1 : sel.length < PROMPT_KANJI_LIMIT
  · rw [if_pos h1]
    by_cases h2 : sel.any (fun x => x.character == k.character) = true
    · rw [if_pos h2, charMap_replace]
      exact h
    · rw [if_neg h2]
      have hnotin : k.character ∉ sel.map (·.character) := by
        intro hmem
        rcases List.mem_map.mp hmem with ⟨x, hx, hxc⟩
        exact h2 (List.any_eq_true.mpr ⟨x, hx, by simp [hxc]⟩)
      simp only [List.map_append, List.map_cons, List.map_nil]
      rw [List.nodup_append]
      refine ⟨h, List.nodup_singleton _, ?_⟩
      intro a ha hb
      rw [List.mem_singleton] at hb
      exact hnotin (hb ▸ ha)
  · rw [if_neg h1]
    exact h

theorem foldl_addItem_length_le (xs : List Kanji) :
    ∀ sel : List Kanji, sel.length ≤ PROMPT_KANJI_LIMIT →
      (xs.foldl addItem sel).length ≤ PROMPT_KANJI_LIMIT := by
  induction xs with
  | nil => exact fun _ h => h
  | cons x xs ih => exact fun sel h => ih _ (length_addItem_le x h)

theorem foldl_addItem_nodup (xs : List Kanji) :
    ∀ sel : List Kanji, (sel.map (·.character)).Nodup →
      ((xs.foldl addItem sel).map (·.character)).Nodup := by
  induction xs with
  | nil => exact fun _ h => h
  | cons x xs ih => exact fun sel h => ih _ (nodup_addItem x h)

theorem foldl_addItem_length_mono (xs : List Kanji) :
    ∀ sel : List Kanji, sel.length ≤ (xs.foldl addItem sel).length := by
  induction xs with
  | nil => exact fun _ => le_refl _
  | cons x xs ih =>
    exact fun sel => le_trans (length_le_addItem sel x) (ih (addItem sel x))

/- C1 / C2: the review-outcome transition against the spec's invariants -/

/-- The spec's reference interval ladder written as closed millisecond
values: 4h, 8h, 1d, 3d, 1wk, 2wk, 1mo (30 d), 4mo (120 d). -/
def INTERVAL_spec : List Int :=
  [14400000, 28800000, 86400000, 259200000, 604800000, 1209600000,
   2592000000, 10368000000]

theorem srs_intervals_eq_spec : SRS_INTERVALS = INTERVAL_spec := by decide

theorem interval_spec_maxIndex : (INTERVAL_spec.length : Int) - 1 = 7 := by decide

/-- The correct-review transition as the spec words it: increment level and
streak, stamp the review time, and schedule `t + INTERVAL[min(newLevel, 7)]`
on the fixed ladder. -/
def correctTransitionSpec (characters : List String) (t : Int) (kanji : Kanji) : Kanji :=
  if characters.contains kanji.character then
    { kanji with
        srsLevel := kanji.srsLevel + 1,
        correctStreak := kanji.correctStreak + 1,
        lastReviewedAt := t,
        nextReviewAt := t + INTERVAL_spec.getD (min (kanji.srsLevel + 1) 7).toNat 0 }
  else kanji

/-- The incorrect-review transition as the spec words it: drop two levels
clamped at 0, reset the streak, stamp the review time, and schedule the fixed
one-hour penalty `t + 3600000` regardless of the new level. -/
def incorrectTransitionSpec (characters : List String) (t : Int) (kanji : Kanji) : Kanji :=
  if characters.contains kanji.character then
    { kanji with
        srsLevel := max 0 (kanji.srsLevel - 2),
        correctStreak := 0,
        lastReviewedAt := t,
        nextReviewAt := t + 3600000 }
  else kanji

theorem reviewStep_correct_eq (characters : List String) (t : Int) (k : Kanji) :
    reviewStep characters .correct t k = correctTransitionSpec characters t k := by
  unfold reviewStep correctTransitionSpec
  by_cases h : (characters.contains k.character) = true
  · rw [if_pos h, if_pos h]
    simp only [srs_intervals_eq_spec, interval_spec_maxIndex]
  · rw [if_neg h, if_neg h]

theorem reviewStep_incorrect_eq (characters : List String) (t : Int) (k : Kanji) :
    reviewStep characters .incorrect t k = incorrectTransitionSpec characters t k := by
  unfold reviewStep incorrectTransitionSpec
  by_cases h : (characters.contains k.character) = true
  · rw [if_pos h, if_pos h]
    rfl
  · rw [if_neg h, if_neg h]

/-- C1: for every tracked character in the review batch and every review
timestamp `t`, the `correct` outcome produces `newSrsLevel = oldSrsLevel + 1`,
`newCorrectStreak = oldCorrectStreak + 1`, `lastReviewedAt = t` and
`nextReviewAt = t + INTERVAL[min(newSrsLevel, 7)]` on the fixed 8-entry
ladder 4h, 8h, 1d, 3d, 1wk, 2wk, 1mo, 4mo (index clamped at the last entry);
entries outside the batch are untouched. -/
theorem claim1_correct_review_invariant (kanjiList : List Kanji)
    (characters : List String) (t : Int) :
    updateKanjiReview kanjiList characters .correct t
      = saveKanjiList (kanjiList.map (correctTransitionSpec characters t)) := by
  unfold updateKanjiReview
  exact congrArg saveKanjiList
    (List.map_congr_left fun k _ => reviewStep_correct_eq characters t k)

/-- C2: for every tracked character in the review batch and every review
timestamp `t`, the `incorrect` outcome produces
`newSrsLevel = max(0, oldSrsLevel - 2)` (never negative),
`newCorrectStreak = 0`, `lastReviewedAt = t` and
`nextReviewAt = t + INTERVAL[0]/4 = t + 3600000` (the fixed 1-hour penalty),
regardless of the new srsLevel; entries outside the batch are untouched. -/
theorem claim2_incorrect_review_invariant (kanjiList : List Kanji)
    (characters : List String) (t : Int) :
    updateKanjiReview kanjiList characters .incorrect t
      = saveKanjiList (kanjiList.map (incorrectTransitionSpec characters t)) := by
  unfold updateKanjiReview
  exact congrArg saveKanjiList
    (List.map_congr_left fun k _ => reviewStep_incorrect_eq characters t k)

/-- C5: every character with `nextReviewAt > now`, `0 < srsLevel ≤ 3` and
`correctStreak ≤ 1` is classified as a leech by the status classifier,
whose buckets are evaluated with precedence new > due > leech > learning >
mastered (first match wins). -/
theorem claim5_leech_classification (k : Kanji) (now : Int)
    (hdue : now < k.nextReviewAt) (h1 : 0 < k.srsLevel) (h2 : k.srsLevel ≤ 3)
    (h3 : k.correctStreak ≤ 1) :
    kanjiStatus k now = KanjiStatus.leech := by
  unfold kanjiStatus
  rw [if_neg (by exact fun hz => absurd (hz ▸ h1) (lt_irrefl 0)),
      if_neg (not_le.mpr hdue), if_pos]
  simp [h1, h2, h3]

/-- C5 witness: the spec's scenario `srsLevel = 2`, `correctStreak = 1`,
`nextReviewAt = now + 1000` classifies as a leech. -/
theorem claim5_witness :
    kanjiStatus
      { character := "猫", addedAt := 0, usedCount := 0, lastUsedAt := 0,
        jlptLevel := none, srsLevel := 2, nextReviewAt := 1000,
        lastReviewedAt := 0, correctStreak := 1 } 0 = KanjiStatus.leech :=
  claim5_leech_classification _ 0 (by decide) (by decide) (by decide) (by decide)

/-- C8: adding text all of whose CJK characters are already tracked — in
particular a single character already present — returns the library
unchanged: same entries, same fields. -/
theorem claim8_idempotent_add (kanjiList : List Kanji) (text : String)
    (details : String → Option Int) (t : Int)
    (h : ∀ c ∈ kanjiMatches text, (kanjiList.map (·.character)).contains c = true) :
    addKanji kanjiList text details t = kanjiList := by
  have hnil : ((dedupFirst [] (kanjiMatches text)).filter
      (fun c => !(kanjiList.map (·.character)).contains c)) = [] := by
    rw [List.filter_eq_nil_iff]
    intro a ha
    have hmem := (mem_dedupFirst.mp ha).1
    have hc := contains_iff_mem.mp (h a hmem)
    simp [h a hmem]
    exact List.mem_map.mp hc
  simp only [addKanji, hnil]
  simp

/-- C8 witness: adding the already-tracked character 猫 is a no-op. -/
theorem claim8_witness :
    addKanji
      [{ character := "猫", addedAt := 33, usedCount := 4, lastUsedAt := 9,
         jlptLevel := some 3, srsLevel := 2, nextReviewAt := 50,
         lastReviewedAt := 40, correctStreak := 5 }] "猫" (fun _ => none) 999
    = [{ character := "猫", addedAt := 33, usedCount := 4, lastUsedAt := 9,
         jlptLevel := some 3, srsLevel := 2, nextReviewAt := 50,
         lastReviewedAt := 40, correctStreak := 5 }] :=
  claim8_idempotent_add _ _ _ _ (by decide)

theorem contains_filter_of_pred {p : String → Bool} {x : String} (hx : p x = true)
    (chars : List String) : (chars.filter p).contains x = chars.contains x := by
  induction chars with
  | nil => rfl
  | cons c cs ih =>
    cases hpc : p c with
    | true =>
      rw [List.filter_cons, if_pos hpc, List.contains_cons, List.contains_cons, ih]
    | false =>
      have hxc : (x == c) = false := by
        rw [beq_eq_false_iff_ne]
        rintro rfl
        rw [hx] at hpc
        exact Bool.noConfusion hpc
      rw [List.filter_cons, if_neg (by simp [hpc]), ih, List.contains_cons, hxc,
        Bool.false_or]

/-- C9: a batch entry naming a character absent from the library is skipped:
dropping the unknown names from the batch changes nothing (so no field of any
entry is altered on their account while known characters update normally),
no entry is created (the length is preserved), and the total functions cannot
abort. -/
theorem claim9_unknown_character_skipped (kanjiList : List Kanji)
    (characters : List String) (performance : Performance) (t t2 : Int) :
    updateKanjiReview kanjiList characters performance t
      = updateKanjiReview kanjiList
          (characters.filter (fun c => (kanjiList.map (·.character)).contains c))
          performance t
    ∧ updateKanjiUsage kanjiList characters t2
      = updateKanjiUsage kanjiList
          (characters.filter (fun c => (kanjiList.map (·.character)).contains c)) t2
    ∧ (updateKanjiReview kanjiList characters performance t).length = kanjiList.length
    ∧ (updateKanjiUsage kanjiList characters t2).length = kanjiList.length := by
  have hkey : ∀ k ∈ kanjiList,
      (characters.filter (fun c => (kanjiList.map (·.character)).contains c)).contains
          k.character
        = characters.contains k.character := by
    intro k hk
    exact contains_filter_of_pred
      (contains_iff_mem.mpr (List.mem_map.mpr ⟨k, hk, rfl⟩)) characters
  refine ⟨?_, ?_, ?_, ?_⟩
  · unfold updateKanjiReview
    refine congrArg saveKanjiList (List.map_congr_left fun k hk => ?_)
    unfold reviewStep
    rw [hkey k hk]
  · unfold updateKanjiUsage
    refine congrArg saveKanjiList (List.map_congr_left fun k hk => ?_)
    unfold usageStep
    rw [hkey k hk]
  · unfold updateKanjiReview
    rw [length_saveKanjiList, List.length_map]
  · unfold updateKanjiUsage
    rw [length_saveKanjiList, List.length_map]

/- C10: the `nextReviewAt ≥ lastReviewedAt` invariant -/

/-- The data-model invariant: `nextReviewAt ≥ lastReviewedAt` whenever
`lastReviewedAt > 0`, for every tracked entry. -/
def libInvariant (L : List Kanji) : Prop :=
  ∀ k ∈ L, 0 < k.lastReviewedAt → k.lastReviewedAt ≤ k.nextReviewAt

instance decidableLibInvariant (L : List Kanji) : Decidable (libInvariant L) :=
  List.decidableBAll _ L

theorem libInvariant_saveKanjiList {L : List Kanji} (h : libInvariant L) :
    libInvariant (saveKanjiList L) :=
  fun k hk => h k (mem_saveKanjiList.mp hk)

theorem interval_nonneg (i : Nat) : 0 ≤ SRS_INTERVALS.getD i 0 := by
  rw [List.getD_eq_getElem?_getD]
  cases h : SRS_INTERVALS[i]? with
  | none => simp
  | some v =>
    have hall : ∀ x ∈ SRS_INTERVALS, (0:Int) ≤ x := by decide
    simpa using hall v (List.getElem?_mem h)

theorem libInvariant_updateKanjiReview (L : List Kanji) (chars : List String)
    (p : Performance) (t : Int) (h : libInvariant L) :
    libInvariant (updateKanjiReview L chars p t) := by
  apply libInvariant_saveKanjiList
  intro k' hk'
  rcases List.mem_map.mp hk' with ⟨k, hkL, rfl⟩
  unfold reviewStep
  by_cases hc : (chars.contains k.character) = true
  · rw [if_pos hc]
    cases p with
    | correct =>
      intro _
      have hnn := interval_nonneg
        (min (k.srsLevel + 1) ((SRS_INTERVALS.length : Int) - 1)).toNat
      simp only
      omega
    | incorrect =>
      intro _
      have hnn : (0:Int) ≤ SRS_INTERVALS.getD 0 0 / 4 := by decide
      simp only
      omega
  · rw [if_neg hc]
    exact h k hkL

theorem libInvariant_updateKanjiUsage (L : List Kanji) (chars : List String)
    (t : Int) (h : libInvariant L) :
    libInvariant (updateKanjiUsage L chars t) := by
  apply libInvariant_saveKanjiList
  intro k' hk'
  rcases List.mem_map.mp hk' with ⟨k, hkL, rfl⟩
  unfold usageStep
  by_cases hc : (chars.contains k.character) = true
  · rw [if_pos hc]
    exact h k hkL
  · rw [if_neg hc]
    exact h k hkL

theorem libInvariant_addKanji (L : List Kanji) (text : String)
    (details : String → Option Int) (t : Int) (h : libInvariant L) :
    libInvariant (addKanji L text details t) := by
  simp only [addKanji]
  split
  · apply libInvariant_saveKanjiList
    intro k hk
    rcases List.mem_append.mp hk with hk | hk
    · exact h k hk
    · rcases List.mem_map.mp hk with ⟨c, _, rfl⟩
      intro hpos
      simp at hpos
  · exact h

theorem libInvariant_deleteKanji (L : List Kanji) (c : String)
    (h : libInvariant L) : libInvariant (deleteKanji L c) :=
  libInvariant_saveKanjiList fun k hk => h k (List.mem_filter.mp hk).1

theorem libInvariant_updateKanjiProperty (L : List Kanji) (c : String)
    (u : KanjiUpdate) (hn : u.nextReviewAt = none) (hl : u.lastReviewedAt = none)
    (h : libInvariant L) : libInvariant (updateKanjiProperty L c u) := by
  apply libInvariant_saveKanjiList
  intro k' hk'
  rcases List.mem_map.mp hk' with ⟨k, hkL, rfl⟩
  by_cases hc : (k.character == c) = true
  · rw [if_pos hc]
    unfold applyUpdate
    rw [hn, hl]
    exact h k hkL
  · rw [if_neg hc]
    exact h k hkL

/-- C10 counterexample: for the operation `updateKanjiProperty` the claim
fails — a property update overriding `nextReviewAt` below a positive
`lastReviewedAt` breaks the invariant even though it held before. -/
theorem claim10_counterexample :
    libInvariant
      [{ character := "猫", addedAt := 0, usedCount := 0, lastUsedAt := 0,
         jlptLevel := none, srsLevel := 1, nextReviewAt := 10,
         lastReviewedAt := 5, correctStreak := 0 }]
    ∧ ¬ libInvariant
        (updateKanjiProperty
          [{ character := "猫", addedAt := 0, usedCount := 0, lastUsedAt := 0,
             jlptLevel := none, srsLevel := 1, nextReviewAt := 10,
             lastReviewedAt := 5, correctStreak := 0 }] "猫"
          { nextReviewAt := some 3 }) := by
  decide

/-- C10 (amended): the invariant `nextReviewAt ≥ lastReviewedAt` (whenever
`lastReviewedAt > 0`) is preserved by add, delete, usage-increment and
review-outcome given it held before, and by a property update whenever the
update does not override `nextReviewAt` or `lastReviewedAt`. -/
theorem claim10_invariant_preservation (L : List Kanji) (text : String)
    (details : String → Option Int) (t : Int) (c : String) (chars : List String)
    (p : Performance) (t2 t3 : Int) (c2 : String) (u : KanjiUpdate)
    (h : libInvariant L) :
    libInvariant (addKanji L text details t)
    ∧ libInvariant (deleteKanji L c)
    ∧ libInvariant (updateKanjiUsage L chars t2)
    ∧ libInvariant (updateKanjiReview L chars p t3)
    ∧ (u.nextReviewAt = none → u.lastReviewedAt = none →
        libInvariant (updateKanjiProperty L c2 u)) :=
  ⟨libInvariant_addKanji L text details t h,
   libInvariant_deleteKanji L c h,
   libInvariant_updateKanjiUsage L chars t2 h,
   libInvariant_updateKanjiReview L chars p t3 h,
   fun hn hl => libInvariant_updateKanjiProperty L c2 u hn hl h⟩

/-- C10 witness: the amended preservation at a concrete library and concrete
arguments for every operation. -/
theorem claim10_witness :
    libInvariant
      [{ character := "犬", addedAt := 1, usedCount := 2, lastUsedAt := 3,
         jlptLevel := some 4, srsLevel := 2, nextReviewAt := 10,
         lastReviewedAt := 5, correctStreak := 1 }]
    ∧ (libInvariant (addKanji
        [{ character := "犬", addedAt := 1, usedCount := 2, lastUsedAt := 3,
           jlptLevel := some 4, srsLevel := 2, nextReviewAt := 10,
           lastReviewedAt := 5, correctStreak := 1 }] "猫" (fun _ => none) 100)
      ∧ libInvariant (deleteKanji
          [{ character := "犬", addedAt := 1, usedCount := 2, lastUsedAt := 3,
             jlptLevel := some 4, srsLevel := 2, nextReviewAt := 10,
             lastReviewedAt := 5, correctStreak := 1 }] "犬")
      ∧ libInvariant (updateKanjiUsage
          [{ character := "犬", addedAt := 1, usedCount := 2, lastUsedAt := 3,
             jlptLevel := some 4, srsLevel := 2, nextReviewAt := 10,
             lastReviewedAt := 5, correctStreak := 1 }] ["犬"] 200)
      ∧ libInvariant (updateKanjiReview
          [{ character := "犬", addedAt := 1, usedCount := 2, lastUsedAt := 3,
             jlptLevel := some 4, srsLevel := 2, nextReviewAt := 10,
             lastReviewedAt := 5, correctStreak := 1 }] ["犬"] .correct 300)
      ∧ (({ srsLevel := some 6 } : KanjiUpdate).nextReviewAt = none →
          ({ srsLevel := some 6 } : KanjiUpdate).lastReviewedAt = none →
          libInvariant (updateKanjiProperty
            [{ character := "犬", addedAt := 1, usedCount := 2, lastUsedAt := 3,
               jlptLevel := some 4, srsLevel := 2, nextReviewAt := 10,
               lastReviewedAt := 5, correctStreak := 1 }] "犬"
            { srsLevel := some 6 }))) :=
  ⟨by decide,
   claim10_invariant_preservation _ "猫" (fun _ => none) 100 "犬" ["犬"]
     .correct 200 300 "犬" { srsLevel := some 6 } (by decide)⟩

/- C7: external generation failure leaves the library unmodified -/

/-- C7: whenever the external sentence-generation call fails (network error
or an unparsable response), `generateJapaneseSentences` surfaces the typed
error, `handleGenerate` returns the library completely unmodified, and a
non-empty error is surfaced to the session. -/
theorem claim7_failure_state_unmodified (kanjiList : List Kanji)
    (jlptFilter now t : Int) (response : Except Unit String)
    (parse : String → Option (List GenSentence))
    (hfail : ∀ text, response = .ok text → parse text.trim = none) :
    (handleGenerate kanjiList jlptFilter now t
        (generateJapaneseSentences response parse)).1 = kanjiList
    ∧ ∃ msg, (handleGenerate kanjiList jlptFilter now t
        (generateJapaneseSentences response parse)).2 = some msg := by
  have herr : generateJapaneseSentences response parse
      = .error "Failed to generate Japanese sentences with Gemini API." := by
    cases response with
    | error e => rfl
    | ok text =>
      have hp := hfail text rfl
      simp [generateJapaneseSentences, hp]
  rw [herr]
  unfold handleGenerate
  by_cases hsel : (selectKanjiForPrompt kanjiList jlptFilter now).length = 0
  · rw [if_pos hsel]
    exact ⟨rfl, _, rfl⟩
  · rw [if_neg hsel]
    exact ⟨rfl, _, rfl⟩

/-- C7 witness: a response that reaches the parser but fails to parse leaves
a concrete library unmodified and surfaces an error. -/
theorem claim7_witness :
    (handleGenerate
      [{ character := "犬", addedAt := 1, usedCount := 2, lastUsedAt := 3,
         jlptLevel := some 4, srsLevel := 2, nextReviewAt := 10,
         lastReviewedAt := 5, correctStreak := 1 }] 0 0 400
      (generateJapaneseSentences (.ok "not json") (fun _ => none))).1
      = [{ character := "犬", addedAt := 1, usedCount := 2, lastUsedAt := 3,
           jlptLevel := some 4, srsLevel := 2, nextReviewAt := 10,
           lastReviewedAt := 5, correctStreak := 1 }]
    ∧ ∃ msg, (handleGenerate
        [{ character := "犬", addedAt := 1, usedCount := 2, lastUsedAt := 3,
           jlptLevel := some 4, srsLevel := 2, nextReviewAt := 10,
           lastReviewedAt := 5, correctStreak := 1 }] 0 0 400
        (generateJapaneseSentences (.ok "not json") (fun _ => none))).2 = some msg :=
  claim7_failure_state_unmodified _ 0 0 400 (.ok "not json") (fun _ => none)
    (fun _ _ => rfl)

/- C3: selector cap and emptiness characterization -/

theorem addItem_nil (k : Kanji) : addItem [] k = [k] := rfl

/-- C3: for every library and every optional JLPT filter, the prompt
selector returns at most `PROMPT_KANJI_LIMIT` (10) pairwise-distinct
characters, and it returns the empty selection exactly when the filtered
candidate pool is empty (the staleness fallback guarantees non-emptiness
otherwise). -/
theorem claim3_selector_cap_and_emptiness (kanjiList : List Kanji)
    (jlptFilter now : Int) :
    (selectKanjiForPrompt kanjiList jlptFilter now).length ≤ PROMPT_KANJI_LIMIT
    ∧ ((selectKanjiForPrompt kanjiList jlptFilter now).map (·.character)).Nodup
    ∧ (selectKanjiForPrompt kanjiList jlptFilter now = []
        ↔ promptCandidates kanjiList jlptFilter = []) := by
  by_cases h0 : (promptCandidates kanjiList jlptFilter).length = 0
  · have hres : selectKanjiForPrompt kanjiList jlptFilter now = [] := by
      simp only [selectKanjiForPrompt]
      rw [if_pos h0]
    rw [hres]
    refine ⟨by simp [PROMPT_KANJI_LIMIT], by simp, ?_⟩
    simp [List.length_eq_zero.mp h0]
  · have hcne : promptCandidates kanjiList jlptFilter ≠ [] := by
      intro hq
      exact h0 (by rw [hq]; rfl)
    have hsel_nodup :
        ((selTiers (promptCandidates kanjiList jlptFilter) now).map (·.character)).Nodup := by
      unfold selTiers
      exact foldl_addItem_nodup _ _
        (foldl_addItem_nodup _ _ (foldl_addItem_nodup _ _ (by simp)))
    have hsel_len :
        (selTiers (promptCandidates kanjiList jlptFilter) now).length
          ≤ PROMPT_KANJI_LIMIT := by
      unfold selTiers
      exact foldl_addItem_length_le _ _
        (foldl_addItem_length_le _ _
          (foldl_addItem_length_le _ _ (by simp [PROMPT_KANJI_LIMIT])))
    have hres : selectKanjiForPrompt kanjiList jlptFilter now
        = if (selTiers (promptCandidates kanjiList jlptFilter) now).length = 0 then
            ((sortBy (fun a b => decide (a.lastUsedAt ≤ b.lastUsedAt))
                (promptCandidates kanjiList jlptFilter)).take
              PROMPT_KANJI_LIMIT).foldl addItem
              (selTiers (promptCandidates kanjiList jlptFilter) now)
          else selTiers (promptCandidates kanjiList jlptFilter) now := by
      simp only [selectKanjiForPrompt]
      rw [if_neg h0]
    rw [hres]
    by_cases hs0 : (selTiers (promptCandidates kanjiList jlptFilter) now).length = 0
    · rw [if_pos hs0, List.length_eq_zero.mp hs0]
      obtain ⟨c, cs, hcs⟩ : ∃ c cs,
          sortBy (fun a b => decide (a.lastUsedAt ≤ b.lastUsedAt))
              (promptCandidates kanjiList jlptFilter) = c :: cs := by
        cases hq : sortBy (fun a b => decide (a.lastUsedAt ≤ b.lastUsedAt))
            (promptCandidates kanjiList jlptFilter) with
        | nil =>
          exfalso
          have hlen := length_sortBy (fun a b => decide (a.lastUsedAt ≤ b.lastUsedAt))
            (promptCandidates kanjiList jlptFilter)
          rw [hq] at hlen
          exact h0 hlen.symm
        | cons c cs => exact ⟨c, cs, rfl⟩
      rw [hcs]
      have htake : (c :: cs).take PROMPT_KANJI_LIMIT = c :: cs.take 9 := rfl
      have hpos : 1 ≤ (((c :: cs).take PROMPT_KANJI_LIMIT).foldl addItem []).length := by
        rw [htake]
        calc 1 = ([c] : List Kanji).length := rfl
        _ ≤ ((cs.take 9).foldl addItem [c]).length := foldl_addItem_length_mono _ _
        _ = ((c :: cs.take 9).foldl addItem []).length := by
            rw [List.foldl_cons, addItem_nil]
      refine ⟨foldl_addItem_length_le _ _ (by simp [PROMPT_KANJI_LIMIT]),
        foldl_addItem_nodup _ _ (by simp), ?_⟩
      constructor
      · intro hq
        rw [hq] at hpos
        simp at hpos
      · intro hq
        exact absurd hq hcne
    · rw [if_neg hs0]
      refine ⟨hsel_len, hsel_nodup, ?_⟩
      constructor
      · intro hq
        exact absurd (by rw [hq]; rfl) hs0
      · intro hq
        exact absurd hq hcne

/- C6: usage increments after a successful generation round -/

/-- The usage transition as the spec words it: a tracked character contained
(as a substring) in at least one returned sentence gets `usedCount + 1`
exactly once for the session and `lastUsedAt = t`, with `srsLevel`,
`correctStreak` and `nextReviewAt` untouched; a character contained in no
sentence is entirely unchanged. -/
def usageTransitionSpec (sentences : List GenSentence) (t : Int) (k : Kanji) : Kanji :=
  if sentences.any (fun s => strIncludes s.japanese k.character) then
    { k with usedCount := k.usedCount + 1, lastUsedAt := t }
  else k

theorem contains_allUsed (kanjiList : List Kanji) (sentences : List GenSentence)
    (k : Kanji) (hk : k ∈ kanjiList) :
    (dedupFirst [] ((sentences.map (fun s =>
        (s, (kanjiList.filter (fun x => strIncludes s.japanese x.character)).map
          (·.character)))).flatMap (fun sc => sc.2))).contains k.character
      = sentences.any (fun s => strIncludes s.japanese k.character) := by
  have h1 : ∀ x : String,
      (x ∈ (sentences.map (fun s =>
          (s, (kanjiList.filter (fun y => strIncludes s.japanese y.character)).map
            (·.character)))).flatMap (fun sc => sc.2))
        ↔ ∃ s ∈ sentences,
            x ∈ (kanjiList.filter (fun y => strIncludes s.japanese y.character)).map
              (·.character) := by
    intro x
    rw [List.mem_flatMap]
    constructor
    · rintro ⟨sc, hsc, hx⟩
      rcases List.mem_map.mp hsc with ⟨s, hs, rfl⟩
      exact ⟨s, hs, hx⟩
    · rintro ⟨s, hs, hx⟩
      exact ⟨_, List.mem_map.mpr ⟨s, hs, rfl⟩, hx⟩
  rw [Bool.eq_iff_iff, contains_iff_mem, mem_dedupFirst, List.any_eq_true]
  simp only [List.not_mem_nil, not_false_iff, and_true]
  rw [h1 k.character]
  constructor
  · rintro ⟨s, hs, hx⟩
    rcases List.mem_map.mp hx with ⟨x, hx', hxc⟩
    exact ⟨s, hs, hxc ▸ (List.mem_filter.mp hx').2⟩
  · rintro ⟨s, hs, hx⟩
    exact ⟨s, hs, List.mem_map.mpr ⟨k, List.mem_filter.mpr ⟨hk, hx⟩, rfl⟩⟩

/-- C6: after one successful generation round (non-empty prompt selection,
`.ok` result), the resulting library is exactly the persisted image of the
per-character usage transition: `usedCount + 1` and `lastUsedAt = t` for
every tracked character occurring in at least one returned sentence — once
per session however many sentences contain it — and unchanged fields
(including `srsLevel`, `correctStreak`, `nextReviewAt`) everywhere else;
no error is surfaced. -/
theorem claim6_usage_increment_dedup (kanjiList : List Kanji)
    (jlptFilter now t : Int) (sentences : List GenSentence)
    (hsel : ¬ (selectKanjiForPrompt kanjiList jlptFilter now).length = 0) :
    handleGenerate kanjiList jlptFilter now t (.ok sentences)
      = (saveKanjiList (kanjiList.map (usageTransitionSpec sentences t)), none) := by
  unfold handleGenerate
  rw [if_neg hsel]
  dsimp only
  rw [Prod.mk.injEq]
  refine ⟨?_, rfl⟩
  unfold updateKanjiUsage
  refine congrArg saveKanjiList (List.map_congr_left fun k hk => ?_)
  unfold usageStep usageTransitionSpec
  rw [contains_allUsed kanjiList sentences k hk]

/-- C6 witness: a concrete two-character library and two sentences, one
character appearing in both sentences (incremented once), the other in
none (unchanged). -/
theorem claim6_witness :
    ¬ (selectKanjiForPrompt
        [{ character := "一", addedAt := 0, usedCount := 3, lastUsedAt := 4,
           jlptLevel := none, srsLevel := 2, nextReviewAt := 50,
           lastReviewedAt := 5, correctStreak := 5 },
         { character := "二", addedAt := 10, usedCount := 7, lastUsedAt := 8,
           jlptLevel := none, srsLevel := 9, nextReviewAt := 2000,
           lastReviewedAt := 5, correctStreak := 9 }] 0 1000).length = 0
    ∧ handleGenerate
        [{ character := "一", addedAt := 0, usedCount := 3, lastUsedAt := 4,
           jlptLevel := none, srsLevel := 2, nextReviewAt := 50,
           lastReviewedAt := 5, correctStreak := 5 },
         { character := "二", addedAt := 10, usedCount := 7, lastUsedAt := 8,
           jlptLevel := none, srsLevel := 9, nextReviewAt := 2000,
           lastReviewedAt := 5, correctStreak := 9 }] 0 1000 555
        (.ok [{ japanese := "一が好き", hiragana := "", english := "", tokens := [] },
              { japanese := "一を見る", hiragana := "", english := "", tokens := [] }])
      = (saveKanjiList
          ([{ character := "一", addedAt := 0, usedCount := 3, lastUsedAt := 4,
              jlptLevel := none, srsLevel := 2, nextReviewAt := 50,
              lastReviewedAt := 5, correctStreak := 5 },
            { character := "二", addedAt := 10, usedCount := 7, lastUsedAt := 8,
              jlptLevel := none, srsLevel := 9, nextReviewAt := 2000,
              lastReviewedAt := 5, correctStreak := 9 }].map
            (usageTransitionSpec
              [{ japanese := "一が好き", hiragana := "", english := "", tokens := [] },
               { japanese := "一を見る", hiragana := "", english := "", tokens := [] }]
              555)), none) :=
  ⟨by decide,
   claim6_usage_increment_dedup _ 0 1000 555 _ (by decide)⟩

/- C4: tier ordering of the selector -/

theorem sortBy_singleton {α : Type} (le : α → α → Bool) (x : α) :
    sortBy le [x] = [x] := rfl

/-- C4: when the pool holds one due item (`srsLevel = 2`), one leech, and one
not-due not-leech learning item with pairwise distinct characters (pool of 3,
below the cap of 10), the selection contains all three in the order
[due, leech, learning]; the leech, though it also matches the learning tier,
is inserted only once, at its higher tier. -/
theorem claim4_selector_tier_ordering (now : Int) (d l g : Kanji)
    (hd1 : d.nextReviewAt ≤ now) (hd2 : d.srsLevel = 2)
    (hl1 : now < l.nextReviewAt) (hl2 : 0 < l.srsLevel) (hl3 : l.srsLevel ≤ 3)
    (hl4 : l.correctStreak ≤ 1)
    (hg1 : now < g.nextReviewAt) (hg2 : g.srsLevel < MASTERED_SRS_LEVEL)
    (hg3 : ¬(0 < g.srsLevel ∧ g.srsLevel ≤ 3 ∧ g.correctStreak ≤ 1))
    (hdl : d.character ≠ l.character) (hdg : d.character ≠ g.character)
    (hlg : l.character ≠ g.character) :
    selectKanjiForPrompt [d, l, g] 0 now = [d, l, g] := by
  have f1 : (decide (d.nextReviewAt ≤ now)) = true := decide_eq_true hd1
  have f2 : (decide (l.nextReviewAt ≤ now)) = false :=
    decide_eq_false (not_le.mpr hl1)
  have f3 : (decide (g.nextReviewAt ≤ now)) = false :=
    decide_eq_false (not_le.mpr hg1)
  have f4 : (decide (d.nextReviewAt > now)) = false :=
    decide_eq_false (not_lt.mpr hd1)
  have f5 : (decide (l.nextReviewAt > now)) = true := decide_eq_true hl1
  have f6 : (decide (g.nextReviewAt > now)) = true := decide_eq_true hg1
  have f7 : (decide (l.srsLevel > 0)) = true := decide_eq_true hl2
  have f8 : (decide (l.srsLevel ≤ 3)) = true := decide_eq_true hl3
  have f9 : (decide (l.correctStreak ≤ 1)) = true := decide_eq_true hl4
  have f10 : (decide (l.srsLevel < MASTERED_SRS_LEVEL)) = true :=
    decide_eq_true (lt_of_le_of_lt hl3 (by decide))
  have f11 : (decide (g.srsLevel < MASTERED_SRS_LEVEL)) = true :=
    decide_eq_true hg2
  have f12 : (decide (g.srsLevel > 0) && decide (g.srsLevel ≤ 3)
      && decide (g.correctStreak ≤ 1)) = false := by
    have hne : ¬(decide (g.srsLevel > 0) && decide (g.srsLevel ≤ 3)
        && decide (g.correctStreak ≤ 1)) = true := by
      simp only [Bool.and_eq_true, decide_eq_true_eq]
      rintro ⟨⟨h1, h2⟩, h3⟩
      exact hg3 ⟨h1, h2, h3⟩
    exact Bool.eq_false_iff.mpr hne
  have b1 : (d.character == l.character) = false := beq_eq_false_iff_ne.mpr hdl
  have b2 : (d.character == g.character) = false := beq_eq_false_iff_ne.mpr hdg
  have b3 : (l.character == g.character) = false := beq_eq_false_iff_ne.mpr hlg
  have b3s : (g.character == l.character) = false :=
    beq_eq_false_iff_ne.mpr (Ne.symm hlg)
  have hdue : dueForReview [d, l, g] now = [d] := by
    unfold dueForReview
    rw [show List.filter (fun k => decide (k.nextReviewAt ≤ now)) [d, l, g] = [d] by
      simp [List.filter_cons, f1, f2, f3]]
    exact sortBy_singleton _ d
  have hleech : leeches [d, l, g] now = [l] := by
    unfold leeches
    rw [show List.filter (fun k =>
        decide (k.nextReviewAt > now) && decide (k.srsLevel > 0) &&
        decide (k.srsLevel ≤ 3) && decide (k.correctStreak ≤ 1)) [d, l, g] = [l] by
      simp only [List.filter_cons, List.filter_nil, f4, f5, f6, f7, f8, f9]
      rw [show (true && decide (g.srsLevel > 0) && decide (g.srsLevel ≤ 3)
          && decide (g.correctStreak ≤ 1))
        = (decide (g.srsLevel > 0) && decide (g.srsLevel ≤ 3)
          && decide (g.correctStreak ≤ 1)) by simp]
      rw [f12]
      simp]
    exact sortBy_singleton _ l
  have hlearnf : List.filter (fun k =>
      decide (k.nextReviewAt > now) && decide (k.srsLevel < MASTERED_SRS_LEVEL))
      [d, l, g] = [l, g] := by
    simp [List.filter_cons, f4, f5, f6, f10, f11]
  have hadd1 : ([d] : List Kanji).foldl addItem [] = [d] := rfl
  have hadd2 : addItem [d] l = [d, l] := by
    simp [addItem, PROMPT_KANJI_LIMIT, b1]
  have hadd3a : addItem [d, l] l = [d, l] := by
    simp [addItem, PROMPT_KANJI_LIMIT, b1]
    exact fun h => absurd h hdl
  have hadd3b : addItem [d, l] g = [d, l, g] := by
    simp [addItem, PROMPT_KANJI_LIMIT, b2, b3]
  have hadd4a : addItem [d, l, g] l = [d, l, g] := by
    simp [addItem, PROMPT_KANJI_LIMIT, b1, b3s]
    exact ⟨fun h => absurd h hdl, fun h => absurd h (Ne.symm hlg)⟩
  have hselT : selTiers [d, l, g] now = [d, l, g] := by
    unfold selTiers learningKanji
    rw [hdue, hleech, hlearnf, hadd1]
    rw [show List.foldl addItem [d] [l] = [d, l] from by
      rw [List.foldl_cons, hadd2, List.foldl_nil]]
    cases hca : decide (g.addedAt ≤ l.addedAt) with
    | true =>
      rw [show sortBy (fun a b => decide (b.addedAt ≤ a.addedAt)) [l, g] = [l, g] from by
        simp [sortBy, insertSorted, hca]]
      rw [List.foldl_cons, hadd3a, List.foldl_cons, hadd3b, List.foldl_nil]
    | false =>
      rw [show sortBy (fun a b => decide (b.addedAt ≤ a.addedAt)) [l, g] = [g, l] from by
        simp [sortBy, insertSorted, hca]]
      rw [List.foldl_cons, hadd3b, List.foldl_cons, hadd4a, List.foldl_nil]
  have hc3 : promptCandidates [d, l, g] 0 = [d, l, g] := by
    unfold promptCandidates
    rw [if_neg (by decide)]
  simp only [selectKanjiForPrompt]
  rw [hc3, if_neg (show ¬([d, l, g] : List Kanji).length = 0 by simp), hselT,
    if_neg (show ¬([d, l, g] : List Kanji).length = 0 by simp)]

/-- C4 witness: a concrete pool of one due item (srsLevel 2), one leech and
one learning item is selected in the order [due, leech, learning]. -/
theorem claim4_witness :
    selectKanjiForPrompt
      [⟨"一", 0, 0, 0, none, 2, 50, 0, 5⟩,
       ⟨"二", 10, 0, 0, none, 2, 2000, 5, 1⟩,
       ⟨"三", 20, 0, 0, none, 5, 2000, 5, 4⟩] 0 1000
      = [⟨"一", 0, 0, 0, none, 2, 50, 0, 5⟩,
         ⟨"二", 10, 0, 0, none, 2, 2000, 5, 1⟩,
         ⟨"三", 20, 0, 0, none, 5, 2000, 5, 4⟩] :=
  claim4_selector_tier_ordering 1000 _ _ _ (by decide) (by decide) (by decide)
    (by decide) (by decide) (by decide) (by decide) (by decide) (by decide)
    (by decide) (by decide) (by decide)

end KanjiSrs
